import Mathlib

/-!
Verification development for the SplitMint repository.

Python floats are modelled as exact rationals (ℚ); `round(x, 2)` is modelled by
`round2`, rounding half-up at the second decimal place.  Python dictionaries for
split participants are modelled by the `Participant` structure whose fields are
`Option ℚ` (a `none` field models an absent dictionary key; `Option.getD`
models `dict.get(key, default)`).  In-place mutation of the caller's participant
list inside `calculate_split_amounts` is modelled by returning, on the error
path, the participant list exactly as it stands at the moment the exception is
raised.
-/

set_option maxRecDepth 8000

/-- Round a rational to 2 decimal places (models Python `round(x, 2)`). -/
def round2 (x : ℚ) : ℚ := (round (100 * x) : ℤ) / 100

/-- A split participant record (models the participant dict in `db.py`).
`none` models an absent key. -/
structure Participant where
  name : String := ""
  share_percentage : Option ℚ := none
  share_ratio : Option ℚ := none
  amount_paid : Option ℚ := none
  share_amount : Option ℚ := none
  amount_owed : Option ℚ := none
deriving DecidableEq, Repr

/-- Errors raised by `calculate_split_amounts` in `db.py`.
`percentageSum` and `paidMismatch` model the two `ValueError`s (each carries
the numeric values interpolated into the Python error message);
`zeroDivision` models Python's `ZeroDivisionError` (division by zero). -/
inductive SplitError where
  | percentageSum (got : ℚ)
  | paidMismatch (total_paid : ℚ) (total_amount : ℚ)
  | zeroDivision
deriving DecidableEq, Repr

/-- Sum of `p.get(key, default)` over a participant list. -/
def sumPct (ps : List Participant) : ℚ :=
  (ps.map (fun p => p.share_percentage.getD 0)).sum

def sumRatio (ps : List Participant) : ℚ :=
  (ps.map (fun p => p.share_ratio.getD 1)).sum

def sumPaid (ps : List Participant) : ℚ :=
  (ps.map (fun p => p.amount_paid.getD 0)).sum

def sumShare (ps : List Participant) : ℚ :=
  (ps.map (fun p => p.share_amount.getD 0)).sum

def sumOwed (ps : List Participant) : ℚ :=
  (ps.map (fun p => p.amount_owed.getD 0)).sum

/-- The participant update performed by the `equal` branch (db.py 395-398):
`share_amount = round(total/n, 2)`, `share_percentage = round(100/n, 2)`,
`share_ratio = 1`. -/
def equalUpd (total : ℚ) (n : ℚ) (p : Participant) : Participant :=
  { p with share_amount := some (round2 (total / n)),
           share_percentage := some (round2 (100 / n)),
           share_ratio := some 1 }

/-- The participant update performed by the `percentage` branch (db.py
407-409): `share_amount = round(percentage/100 * total, 2)`. -/
def pctUpd (total : ℚ) (p : Participant) : Participant :=
  { p with share_amount := some (round2 ((p.share_percentage.getD 0) / 100 * total)) }

/-- The participant update performed by the `ratio` branch (db.py 415-418):
`share_percentage = round(ratio/total_ratio*100, 2)`,
`share_amount = round(ratio/total_ratio*total, 2)`. -/
def ratioUpd (total : ℚ) (R : ℚ) (p : Participant) : Participant :=
  { p with share_percentage := some (round2 ((p.share_ratio.getD 1) / R * 100)),
           share_amount := some (round2 ((p.share_ratio.getD 1) / R * total)) }

/-- The share-computation phase of `calculate_split_amounts` (db.py lines
392-418): the `equal` / `percentage` / `ratio` branches, before the paid-sum
check.  An unrecognized method string leaves the participants untouched, like
the Python `if/elif` chain falling through; a Python `ZeroDivisionError`
(empty list under `equal`, zero ratio total under `ratio`) is made explicit. -/
def applyShares (total_amount : ℚ) (participants : List Participant)
    (split_method : String) : Except SplitError (List Participant) :=
  if split_method = "equal" then
    if participants.length = 0 then .error .zeroDivision else
    .ok (participants.map (equalUpd total_amount (participants.length : ℚ)))
  else if split_method = "percentage" then
    if |sumPct participants - 100| > 1/100 then
      .error (.percentageSum (sumPct participants))
    else
      .ok (participants.map (pctUpd total_amount))
  else if split_method = "ratio" then
    if sumRatio participants = 0 then .error .zeroDivision else
    .ok (participants.map (ratioUpd total_amount (sumRatio participants)))
  else
    .ok participants

/-- The final `amount_owed` loop of `calculate_split_amounts`
(db.py lines 426-429). -/
def owedMap (ps : List Participant) : List Participant :=
  ps.map fun p =>
    let owed := round2 (p.share_amount.getD 0 - p.amount_paid.getD 0)
    { p with amount_owed := some owed }

/-- `calculate_split_amounts` (db.py lines 378-431).  On success the returned
list carries the computed shares and `amount_owed`; on error the second
component of the error payload is the participant list exactly as it stands
when the exception is raised (the Python code mutates the caller's list in
place, so this is what the caller observes after catching the exception). -/
def calculate_split_amounts (total_amount : ℚ) (participants : List Participant)
    (split_method : String) :
    Except (SplitError × List Participant) (List Participant) :=
  match applyShares total_amount participants split_method with
  | .error e => .error (e, participants)
  | .ok ps =>
    let total_paid := sumPaid ps
    if |total_paid - total_amount| > 1/100 then
      .error (.paidMismatch total_paid total_amount, ps)
    else
      .ok (owedMap ps)

instance exceptDecEq {ε α : Type} [DecidableEq ε] [DecidableEq α] :
    DecidableEq (Except ε α) := fun x y =>
  match x, y with
  | .error a, .error b =>
    if h : a = b then .isTrue (by rw [h]) else .isFalse (by intro hh; cases hh; exact h rfl)
  | .error _, .ok _ => .isFalse (by intro hh; cases hh)
  | .ok _, .error _ => .isFalse (by intro hh; cases hh)
  | .ok a, .ok b =>
    if h : a = b then .isTrue (by rw [h]) else .isFalse (by intro hh; cases hh; exact h rfl)

/-! ### Arithmetic helper lemmas -/

theorem round2_err (x : ℚ) : |round2 x - x| ≤ 1 / 200 := by
  unfold round2
  have h : |100 * x - round (100 * x)| ≤ 1 / 2 := abs_sub_round (100 * x)
  rw [abs_sub_comm] at h
  have e : ((round (100 * x) : ℤ) : ℚ) / 100 - x
      = ((round (100 * x) : ℤ) - 100 * x) / 100 := by ring
  rw [e, abs_div]
  have : |(100 : ℚ)| = 100 := by norm_num
  rw [this]
  linarith

theorem sum_round2_err (l : List ℚ) :
    |(l.map round2).sum - l.sum| ≤ (l.length : ℚ) / 200 := by
  induction l with
  | nil => simp
  | cons x xs ih =>
    simp only [List.map_cons, List.sum_cons, List.length_cons]
    have h1 := round2_err x
    have e : round2 x + (xs.map round2).sum - (x + xs.sum)
        = (round2 x - x) + ((xs.map round2).sum - xs.sum) := by ring
    rw [e]
    have h2 := abs_add (round2 x - x) ((xs.map round2).sum - xs.sum)
    have : ((xs.length + 1 : ℕ) : ℚ) = (xs.length : ℚ) + 1 := by push_cast; ring
    rw [this]
    linarith

theorem sum_map_const_q {α : Type} (l : List α) (c : ℚ) :
    (l.map fun _ => c).sum = (l.length : ℚ) * c := by
  induction l with
  | nil => simp
  | cons x xs ih =>
    simp only [List.map_cons, List.sum_cons, List.length_cons, ih]
    push_cast
    ring

theorem sum_map_mul_right_q {α : Type} (l : List α) (f : α → ℚ) (c : ℚ) :
    (l.map fun x => f x * c).sum = (l.map f).sum * c := by
  induction l with
  | nil => simp
  | cons x xs ih => simp only [List.map_cons, List.sum_cons, ih]; ring

theorem sum_map_sub_q {α : Type} (l : List α) (f g : α → ℚ) :
    (l.map fun x => f x - g x).sum = (l.map f).sum - (l.map g).sum := by
  induction l with
  | nil => simp
  | cons x xs ih => simp only [List.map_cons, List.sum_cons, ih]; ring

theorem length_le_sum_of_one_le (l : List ℚ) (h : ∀ x ∈ l, 1 ≤ x) :
    (l.length : ℚ) ≤ l.sum := by
  induction l with
  | nil => simp
  | cons x xs ih =>
    simp only [List.length_cons, List.sum_cons]
    have hx : 1 ≤ x := h x (by simp)
    have hxs : (xs.length : ℚ) ≤ xs.sum := ih (fun y hy => h y (by simp [hy]))
    push_cast
    linarith

/-! ### Structural lemmas about the allocator -/

theorem sumPaid_map (ps : List Participant) (f : Participant → Participant)
    (hf : ∀ p, (f p).amount_paid = p.amount_paid) :
    sumPaid (ps.map f) = sumPaid ps := by
  unfold sumPaid
  rw [List.map_map]
  refine congrArg List.sum (List.map_congr_left ?_)
  intro p _
  simp [Function.comp, hf]

theorem sumShare_map (ps : List Participant) (f : Participant → Participant)
    (hf : ∀ p, (f p).share_amount = p.share_amount) :
    sumShare (ps.map f) = sumShare ps := by
  unfold sumShare
  rw [List.map_map]
  refine congrArg List.sum (List.map_congr_left ?_)
  intro p _
  simp [Function.comp, hf]

theorem sumShare_map_round2 (ps : List Participant) (f : Participant → Participant)
    (g : Participant → ℚ) (hf : ∀ p, (f p).share_amount = some (round2 (g p))) :
    sumShare (ps.map f) = ((ps.map g).map round2).sum := by
  unfold sumShare
  rw [List.map_map, List.map_map]
  refine congrArg List.sum (List.map_congr_left ?_)
  intro p _
  simp [Function.comp, hf]

theorem sumOwed_owedMap (rs : List Participant) :
    sumOwed (owedMap rs) =
      ((rs.map fun r => r.share_amount.getD 0 - r.amount_paid.getD 0).map
        round2).sum := by
  unfold sumOwed owedMap
  rw [List.map_map, List.map_map]
  refine congrArg List.sum (List.map_congr_left ?_)
  intro p _
  simp [Function.comp]

theorem calculate_ok_iff {total : ℚ} {ps qs : List Participant} {m : String} :
    calculate_split_amounts total ps m = .ok qs ↔
    ∃ rs, applyShares total ps m = .ok rs ∧ ¬(|sumPaid rs - total| > 1/100)
      ∧ qs = owedMap rs := by
  unfold calculate_split_amounts
  cases h : applyShares total ps m with
  | error e => simp [h]
  | ok rs =>
    simp only [h]
    split_ifs with hc
    · simp only [reduceCtorEq, false_iff]
      rintro ⟨rs', hrs', hc', hq⟩
      cases hrs'
      exact hc' hc
    · constructor
      · rintro h'
        injection h' with h'
        exact ⟨rs, rfl, hc, h'.symm⟩
      · rintro ⟨rs', hrs', _, hq⟩
        cases hrs'
        simp [hq]

theorem applyShares_equal (total : ℚ) (ps : List Participant) (hne : ps ≠ []) :
    applyShares total ps ("equal")
      = .ok (ps.map (equalUpd total (ps.length : ℚ))) := by
  unfold applyShares
  rw [if_pos rfl, if_neg (by simp [List.length_eq_zero, hne])]

theorem applyShares_percentage (total : ℚ) (ps : List Participant) :
    applyShares total ps ("percentage")
      = if |sumPct ps - 100| > 1/100 then .error (.percentageSum (sumPct ps))
        else .ok (ps.map (pctUpd total)) := by
  unfold applyShares
  rw [if_neg (by decide), if_pos rfl]

theorem applyShares_ratio (total : ℚ) (ps : List Participant)
    (hR : sumRatio ps ≠ 0) :
    applyShares total ps ("ratio")
      = .ok (ps.map (ratioUpd total (sumRatio ps))) := by
  unfold applyShares
  rw [if_neg (by decide), if_neg (by decide), if_pos rfl, if_neg hR]

theorem equalUpd_paid (total n : ℚ) (p : Participant) :
    (equalUpd total n p).amount_paid = p.amount_paid := rfl

theorem pctUpd_paid (total : ℚ) (p : Participant) :
    (pctUpd total p).amount_paid = p.amount_paid := rfl

theorem ratioUpd_paid (total R : ℚ) (p : Participant) :
    (ratioUpd total R p).amount_paid = p.amount_paid := rfl

/-- Any successful share computation leaves `amount_paid` untouched. -/
theorem applyShares_sumPaid {total : ℚ} {ps rs : List Participant} {m : String}
    (h : applyShares total ps m = .ok rs) : sumPaid rs = sumPaid ps := by
  unfold applyShares at h
  split_ifs at h with h1 h2 h3 h4 h5 h6
  · injection h with h
    subst h
    exact sumPaid_map ps _ (equalUpd_paid total _)
  · injection h with h
    subst h
    exact sumPaid_map ps _ (pctUpd_paid total)
  · injection h with h
    subst h
    exact sumPaid_map ps _ (ratioUpd_paid total _)
  · injection h with h
    subst h
    rfl

theorem applyShares_length {total : ℚ} {ps rs : List Participant} {m : String}
    (h : applyShares total ps m = .ok rs) : rs.length = ps.length := by
  unfold applyShares at h
  split_ifs at h
  · injection h with h
    subst h
    exact List.length_map _ _
  · injection h with h
    subst h
    exact List.length_map _ _
  · injection h with h
    subst h
    exact List.length_map _ _
  · injection h with h
    subst h
    rfl

theorem sumShare_owedMap (rs : List Participant) :
    sumShare (owedMap rs) = sumShare rs :=
  sumShare_map rs _ (fun _ => rfl)

theorem sumShare_equal (total : ℚ) (ps : List Participant) (hne : ps ≠ []) :
    |sumShare (ps.map (equalUpd total (ps.length : ℚ))) - total|
      ≤ (ps.length : ℚ) / 200 := by
  have hlen : (ps.length : ℚ) ≠ 0 :=
    Nat.cast_ne_zero.mpr (fun hh => hne (List.length_eq_zero.mp hh))
  have h1 : sumShare (ps.map (equalUpd total (ps.length : ℚ)))
      = ((ps.map fun _ => total / (ps.length : ℚ)).map round2).sum :=
    sumShare_map_round2 ps _ _ (fun p => rfl)
  rw [h1]
  have h2 := sum_round2_err (ps.map fun _ => total / (ps.length : ℚ))
  rw [List.length_map, sum_map_const_q] at h2
  have h3 : (ps.length : ℚ) * (total / (ps.length : ℚ)) = total := by
    field_simp
  rw [h3] at h2
  exact h2

theorem sumShare_pct (total : ℚ) (ps : List Participant) :
    |sumShare (ps.map (pctUpd total)) - sumPct ps * (total / 100)|
      ≤ (ps.length : ℚ) / 200 := by
  have h1 : sumShare (ps.map (pctUpd total))
      = ((ps.map fun p => (p.share_percentage.getD 0) / 100 * total).map round2).sum :=
    sumShare_map_round2 ps _ _ (fun p => rfl)
  rw [h1]
  have h2 := sum_round2_err (ps.map fun p => (p.share_percentage.getD 0) / 100 * total)
  rw [List.length_map] at h2
  have h3 : (ps.map fun p => (p.share_percentage.getD 0) / 100 * total).sum
      = sumPct ps * (total / 100) := by
    have e : (fun (p : Participant) => (p.share_percentage.getD 0) / 100 * total)
        = fun p => (p.share_percentage.getD 0) * (total / 100) := by
      funext p
      ring
    rw [e, sum_map_mul_right_q]
    rfl
  rw [h3] at h2
  exact h2

theorem sumShare_ratio (total : ℚ) (ps : List Participant)
    (hR : sumRatio ps ≠ 0) :
    |sumShare (ps.map (ratioUpd total (sumRatio ps))) - total|
      ≤ (ps.length : ℚ) / 200 := by
  have h1 : sumShare (ps.map (ratioUpd total (sumRatio ps)))
      = ((ps.map fun p => (p.share_ratio.getD 1) / sumRatio ps * total).map round2).sum :=
    sumShare_map_round2 ps _ _ (fun p => rfl)
  rw [h1]
  have h2 := sum_round2_err (ps.map fun p => (p.share_ratio.getD 1) / sumRatio ps * total)
  rw [List.length_map] at h2
  have h3 : (ps.map fun p => (p.share_ratio.getD 1) / sumRatio ps * total).sum = total := by
    have e : (fun (p : Participant) => (p.share_ratio.getD 1) / sumRatio ps * total)
        = fun p => (p.share_ratio.getD 1) * (total / sumRatio ps) := by
      funext p
      ring
    rw [e, sum_map_mul_right_q]
    show sumRatio ps * (total / sumRatio ps) = total
    field_simp
  rw [h3] at h2
  exact h2

/-! ### Claim C1 -/

/-- C1 (amended): for every positive total, non-empty participant list and
method among equal/percentage/ratio for which `calculate_split_amounts`
succeeds, (a) the sum of the allocated `share_amount`s differs from
`total_amount` by at most `n * 0.005 + total_amount * 0.0001` (not by at most
the claimed fixed epsilon `0.01`); (b) `amount_owed = round(share_amount -
amount_paid, 2)` for every returned participant; and (c) whenever the paid
amounts sum exactly to the total, the `amount_owed`s sum to at most
`n * 0.01 + total_amount * 0.0001` in absolute value (not exactly `0`). -/
theorem C1_allocation_invariants (total : ℚ) (ps qs : List Participant)
    (m : String) (hpos : 0 < total) (hne : ps ≠ [])
    (hm : m = "equal" ∨ m = "percentage" ∨ m = "ratio")
    (hok : calculate_split_amounts total ps m = .ok qs) :
    |sumShare qs - total| ≤ (ps.length : ℚ) / 200 + total / 10000
    ∧ (∀ q ∈ qs,
        q.amount_owed = some (round2 (q.share_amount.getD 0 - q.amount_paid.getD 0)))
    ∧ (sumPaid ps = total →
        |sumOwed qs| ≤ (ps.length : ℚ) / 100 + total / 10000) := by
  obtain ⟨rs, hap, hchk, hq⟩ := calculate_ok_iff.mp hok
  have hlenq : (0 : ℚ) ≤ (ps.length : ℚ) := Nat.cast_nonneg _
  have howed : ∀ q ∈ qs,
      q.amount_owed = some (round2 (q.share_amount.getD 0 - q.amount_paid.getD 0)) := by
    subst hq
    intro q hqmem
    obtain ⟨r, hr, rfl⟩ := List.mem_map.mp hqmem
    rfl
  have hsq : sumShare qs = sumShare rs := by
    subst hq
    exact sumShare_owedMap rs
  have hshare : |sumShare rs - total| ≤ (ps.length : ℚ) / 200 + total / 10000 := by
    rcases hm with hm | hm | hm <;> subst hm
    · rw [applyShares_equal total ps hne] at hap
      injection hap with hap
      subst hap
      have := sumShare_equal total ps hne
      linarith [abs_nonneg (sumShare (ps.map (equalUpd total (ps.length : ℚ))) - total)]
    · rw [applyShares_percentage total ps] at hap
      split_ifs at hap with hcond
      injection hap with hap
      subst hap
      have h1 := sumShare_pct total ps
      have h2 : |sumPct ps - 100| ≤ 1/100 := not_lt.mp hcond
      have h3 : |sumPct ps * (total / 100) - total|
          = |sumPct ps - 100| * (total / 100) := by
        have e : sumPct ps * (total / 100) - total
            = (sumPct ps - 100) * (total / 100) := by ring
        have ht : |total / 100| = total / 100 := abs_of_pos (by positivity)
        rw [e, abs_mul, ht]
      have h4 : |sumPct ps - 100| * (total / 100) ≤ (1/100) * (total / 100) :=
        mul_le_mul_of_nonneg_right h2 (by positivity)
      calc |sumShare (ps.map (pctUpd total)) - total|
          ≤ |sumShare (ps.map (pctUpd total)) - sumPct ps * (total / 100)|
            + |sumPct ps * (total / 100) - total| := by
              have := abs_sub_le (sumShare (ps.map (pctUpd total)))
                (sumPct ps * (total / 100)) total
              linarith
        _ ≤ (ps.length : ℚ) / 200 + (1/100) * (total / 100) := by
              rw [h3] at *
              linarith
        _ = (ps.length : ℚ) / 200 + total / 10000 := by ring
    · by_cases hR : sumRatio ps = 0
      · unfold applyShares at hap
        rw [if_neg (by decide), if_neg (by decide), if_pos rfl, if_pos hR] at hap
        cases hap
      · rw [applyShares_ratio total ps hR] at hap
        injection hap with hap
        subst hap
        have := sumShare_ratio total ps hR
        linarith
  refine ⟨by rw [hsq]; exact hshare, howed, ?_⟩
  intro hpaid
  have hso : sumOwed qs
      = ((rs.map fun r => r.share_amount.getD 0 - r.amount_paid.getD 0).map
          round2).sum := by
    subst hq
    exact sumOwed_owedMap rs
  have herr := sum_round2_err
    (rs.map fun r => r.share_amount.getD 0 - r.amount_paid.getD 0)
  rw [List.length_map] at herr
  have hsub : (rs.map fun r => r.share_amount.getD 0 - r.amount_paid.getD 0).sum
      = sumShare rs - sumPaid rs :=
    sum_map_sub_q rs _ _
  have hps : sumPaid rs = total := by
    rw [applyShares_sumPaid hap]
    exact hpaid
  have hlen : rs.length = ps.length := applyShares_length hap
  rw [hso]
  rw [hsub, hps, hlen] at herr
  calc |((rs.map fun r => r.share_amount.getD 0 - r.amount_paid.getD 0).map
          round2).sum|
      ≤ |((rs.map fun r => r.share_amount.getD 0 - r.amount_paid.getD 0).map
          round2).sum - (sumShare rs - total)| + |sumShare rs - total| := by
        have := abs_sub_le
          ((rs.map fun r => r.share_amount.getD 0 - r.amount_paid.getD 0).map
            round2).sum (sumShare rs - total) 0
        simpa using this
    _ ≤ (ps.length : ℚ) / 200 + ((ps.length : ℚ) / 200 + total / 10000) := by
        have e : ((rs.map fun r => r.share_amount.getD 0 - r.amount_paid.getD 0).map
            round2).sum - (sumShare rs - total)
            = ((rs.map fun r => r.share_amount.getD 0 - r.amount_paid.getD 0).map
                round2).sum - (sumShare rs - total) := rfl
        exact add_le_add herr hshare
    _ = (ps.length : ℚ) / 100 + total / 10000 := by ring

/-- Extracting a successful run of `calculate_split_amounts` from a
successful share phase plus a passing paid-sum check. -/
theorem calculate_ok_of {total : ℚ} {ps rs : List Participant} {m : String}
    (hap : applyShares total ps m = .ok rs)
    (hchk : ¬ |sumPaid rs - total| > 1/100) :
    calculate_split_amounts total ps m = .ok (owedMap rs) := by
  unfold calculate_split_amounts
  rw [hap]
  dsimp only
  rw [if_neg hchk]

/-- C1 counterexample input: total 3.012 split equally among three
participants, of whom the first paid the whole 3.012. -/
def c1ps : List Participant :=
  [{ amount_paid := some (753/250) }, {}, {}]

/-- C1 counterexample: allocation succeeds (the paid sum matches the total
exactly), yet the rounded shares `[1.00, 1.00, 1.00]` sum to `3`, which
differs from the total `3.012` by `0.012 > 0.01`; moreover the `amount_owed`
values sum to `-0.01`, not `0`, although the paid amounts sum exactly to the
total.  This refutes both the claimed epsilon-0.01 share-sum invariant and
the claimed exact zero sum of `amount_owed`. -/
theorem C1_counterexample :
    calculate_split_amounts (753/250) c1ps ("equal")
        = .ok (owedMap (c1ps.map (equalUpd (753/250) 3)))
    ∧ sumShare (owedMap (c1ps.map (equalUpd (753/250) 3))) = 3
    ∧ sumOwed (owedMap (c1ps.map (equalUpd (753/250) 3))) = -(1/100)
    ∧ sumPaid c1ps = 753/250
    ∧ |(3 : ℚ) - 753/250| > 1/100 := by
  have hne : c1ps ≠ [] := by simp [c1ps]
  have hlen : ((c1ps.length : ℕ) : ℚ) = 3 := by norm_num [c1ps]
  have hap : applyShares (753/250) c1ps ("equal")
      = .ok (c1ps.map (equalUpd (753/250) 3)) := by
    rw [applyShares_equal _ _ hne, hlen]
  have hpaid : sumPaid (c1ps.map (equalUpd (753/250) 3)) = 753/250 := by
    rw [sumPaid_map _ _ (equalUpd_paid _ _)]
    norm_num [sumPaid, c1ps]
  have h1 : round2 ((753/250 : ℚ) / 3) = 1 := by norm_num [round2, round_eq]
  have h2 : round2 ((1 : ℚ) - 753/250) = -(201/100) := by
    norm_num [round2, round_eq]
  have h3 : round2 (1 : ℚ) = 1 := by norm_num [round2, round_eq]
  refine ⟨calculate_ok_of hap (by rw [hpaid]; norm_num), ?_, ?_, ?_, ?_⟩
  · rw [sumShare_owedMap]
    simp [sumShare, c1ps, equalUpd, h1]
    norm_num
  · simp [sumOwed, owedMap, c1ps, equalUpd, h1, h2, h3]
    norm_num
  · norm_num [sumPaid, c1ps]
  · rw [show (3 : ℚ) - 753/250 = -(3/250) by norm_num, abs_neg,
      abs_of_pos (by norm_num : (0:ℚ) < 3/250)]
    norm_num

/-- C1 witness input: total 300 split equally among three participants, the
first of whom paid 300. -/
def c1wps : List Participant := [{ amount_paid := some 300 }, {}, {}]

/-- Witness for `C1_allocation_invariants` at a concrete input (total 300,
equal split, three participants, first paid 300). -/
theorem C1_witness :
    |sumShare (owedMap (c1wps.map (equalUpd 300 (c1wps.length : ℚ)))) - 300|
      ≤ (c1wps.length : ℚ) / 200 + 300 / 10000
    ∧ (∀ q ∈ owedMap (c1wps.map (equalUpd 300 (c1wps.length : ℚ))),
        q.amount_owed = some (round2 (q.share_amount.getD 0 - q.amount_paid.getD 0)))
    ∧ (sumPaid c1wps = 300 →
        |sumOwed (owedMap (c1wps.map (equalUpd 300 (c1wps.length : ℚ))))|
          ≤ (c1wps.length : ℚ) / 100 + 300 / 10000) := by
  have hne : c1wps ≠ [] := by simp [c1wps]
  have hap : applyShares 300 c1wps ("equal")
      = .ok (c1wps.map (equalUpd 300 (c1wps.length : ℚ))) :=
    applyShares_equal 300 c1wps hne
  have hchk : ¬ |sumPaid (c1wps.map (equalUpd 300 (c1wps.length : ℚ))) - 300| > 1/100 := by
    rw [sumPaid_map _ _ (equalUpd_paid _ _)]
    norm_num [sumPaid, c1wps]
  exact C1_allocation_invariants 300 c1wps _ ("equal") (by norm_num) hne
    (Or.inl rfl) (calculate_ok_of hap hchk)

/-! ### Claim C2 -/

theorem calculate_eq {total : ℚ} {ps rs : List Participant} {m : String}
    (hap : applyShares total ps m = .ok rs) :
    calculate_split_amounts total ps m =
      if |sumPaid rs - total| > 1/100
      then .error (.paidMismatch (sumPaid rs) total, rs)
      else .ok (owedMap rs) := by
  unfold calculate_split_amounts
  rw [hap]

theorem calculate_err {total : ℚ} {ps : List Participant} {m : String}
    {e : SplitError} (hap : applyShares total ps m = .error e) :
    calculate_split_amounts total ps m = .error (e, ps) := by
  unfold calculate_split_amounts
  rw [hap]

/-- A successful `equal` allocation starts from a non-empty list. -/
theorem equal_ok_ne_nil {total : ℚ} {ps rs : List Participant}
    (hap : applyShares total ps ("equal") = .ok rs) : ps ≠ [] := by
  intro hnil
  subst hnil
  unfold applyShares at hap
  rw [if_pos rfl] at hap
  simp at hap

/-- C2 input: total 300, three participants, the first paid 300. -/
def c2ps : List Participant := [{ amount_paid := some 300 }, {}, {}]

/-- The allocated list for the C2 example. -/
def c2qs : List Participant := owedMap (c2ps.map (equalUpd 300 3))

/-- C2: under the `equal` method, every allocated participant receives
`share_amount = round(total/n, 2)`, `share_percentage = round(100/n, 2)` and
`share_ratio = 1`; in the concrete 300-among-3 example with one payer of 300,
every `share_amount` is 100, the payer owes -200, the other two owe +100
each, and the `amount_owed` values sum to 0. -/
theorem C2_equal_method :
    (∀ (total : ℚ) (ps qs : List Participant),
      calculate_split_amounts total ps ("equal") = .ok qs →
      ∀ q ∈ qs, q.share_amount = some (round2 (total / (ps.length : ℚ)))
        ∧ q.share_percentage = some (round2 (100 / (ps.length : ℚ)))
        ∧ q.share_ratio = some 1)
    ∧ calculate_split_amounts 300 c2ps ("equal") = .ok c2qs
    ∧ (∀ q ∈ c2qs, q.share_amount = some 100)
    ∧ c2qs.map (fun q => q.amount_owed) = [some (-200), some 100, some 100]
    ∧ sumOwed c2qs = 0 := by
  have huniv : ∀ (total : ℚ) (ps qs : List Participant),
      calculate_split_amounts total ps ("equal") = .ok qs →
      ∀ q ∈ qs, q.share_amount = some (round2 (total / (ps.length : ℚ)))
        ∧ q.share_percentage = some (round2 (100 / (ps.length : ℚ)))
        ∧ q.share_ratio = some 1 := by
    intro total ps qs hok q hq
    obtain ⟨rs, hap, hchk, hqs⟩ := calculate_ok_iff.mp hok
    have hne : ps ≠ [] := equal_ok_ne_nil hap
    rw [applyShares_equal total ps hne] at hap
    injection hap with hap
    subst hap
    subst hqs
    obtain ⟨r, hr, rfl⟩ := List.mem_map.mp hq
    obtain ⟨p, hp, rfl⟩ := List.mem_map.mp hr
    exact ⟨rfl, rfl, rfl⟩
  have hne2 : c2ps ≠ [] := by simp [c2ps]
  have hlen2 : ((c2ps.length : ℕ) : ℚ) = 3 := by norm_num [c2ps]
  have hap2 : applyShares 300 c2ps ("equal") = .ok (c2ps.map (equalUpd 300 3)) := by
    rw [applyShares_equal _ _ hne2, hlen2]
  have hpaid2 : sumPaid (c2ps.map (equalUpd 300 3)) = 300 := by
    rw [sumPaid_map _ _ (equalUpd_paid _ _)]
    norm_num [sumPaid, c2ps]
  have h100 : round2 ((300 : ℚ) / 3) = 100 := by norm_num [round2, round_eq]
  have howp : round2 ((100 : ℚ) - 300) = -200 := by norm_num [round2, round_eq]
  have howo : round2 (100 : ℚ) = 100 := by norm_num [round2, round_eq]
  refine ⟨huniv, calculate_ok_of hap2 (by rw [hpaid2]; norm_num), ?_, ?_, ?_⟩
  · intro q hq
    obtain ⟨ha, _, _⟩ := huniv 300 c2ps c2qs
      (calculate_ok_of hap2 (by rw [hpaid2]; norm_num)) q hq
    rw [ha, hlen2, h100]
  · simp [c2qs, owedMap, c2ps, equalUpd, h100, howp, howo]
  · simp [sumOwed, c2qs, owedMap, c2ps, equalUpd, h100, howp, howo]
    norm_num

/-- Witness for the universal component of `C2_equal_method`, instantiated at
the concrete 300-among-3 input. -/
theorem C2_witness :
    ∀ q ∈ c2qs, q.share_amount = some (round2 (300 / (c2ps.length : ℚ)))
      ∧ q.share_percentage = some (round2 (100 / (c2ps.length : ℚ)))
      ∧ q.share_ratio = some 1 :=
  C2_equal_method.1 300 c2ps c2qs C2_equal_method.2.1

/-! ### Claim C3 -/

/-- Under the ratio-lower-bound precondition the ratio total is at least the
(positive) number of participants, hence nonzero. -/
theorem sumRatio_pos (ps : List Participant) (hne : ps ≠ [])
    (hr : ∀ p ∈ ps, ∀ r, p.share_ratio = some r → 1 ≤ r) :
    0 < sumRatio ps := by
  have h1 : ∀ x ∈ ps.map (fun p => p.share_ratio.getD 1), 1 ≤ x := by
    intro x hx
    obtain ⟨p, hp, rfl⟩ := List.mem_map.mp hx
    cases hsr : p.share_ratio with
    | none => simp [hsr]
    | some r => simpa [hsr] using hr p hp r hsr
  have h2 := length_le_sum_of_one_le _ h1
  rw [List.length_map] at h2
  have h3 : 1 ≤ (ps.length : ℚ) := by
    have : 1 ≤ ps.length := List.length_pos.mpr hne
    exact_mod_cast this
  unfold sumRatio
  linarith

/-- The error characterization of a run whose share phase succeeded. -/
theorem calcErrCharacterization (total : ℚ) (ps : List Participant) (m : String)
    (rs : List Participant) (hap : applyShares total ps m = .ok rs)
    (hnp : ¬(m = "percentage" ∧ |sumPct ps - 100| > 1/100)) :
    ((∃ err, calculate_split_amounts total ps m = .error err) ↔
      ((m = "percentage" ∧ |sumPct ps - 100| > 1/100)
        ∨ |sumPaid ps - total| > 1/100))
    ∧ (∀ s st, calculate_split_amounts total ps m = .error (.percentageSum s, st) →
        s = sumPct ps ∧ |s - 100| > 1/100)
    ∧ (∀ a b st, calculate_split_amounts total ps m = .error (.paidMismatch a b, st) →
        a = sumPaid ps ∧ b = total ∧ |a - b| > 1/100) := by
  have hps : sumPaid rs = sumPaid ps := applyShares_sumPaid hap
  have hcalc := calculate_eq hap
  refine ⟨?_, ?_, ?_⟩
  · constructor
    · rintro ⟨err, herr⟩
      rw [hcalc] at herr
      split_ifs at herr with hc
      · right
        rw [← hps]
        exact hc
    · rintro (hbad | hpaidbad)
      · exact absurd hbad hnp
      · refine ⟨(.paidMismatch (sumPaid rs) total, rs), ?_⟩
        rw [hcalc, if_pos (by rw [hps]; exact hpaidbad)]
  · intro s st herr
    rw [hcalc] at herr
    split_ifs at herr with hc
    · injection herr with h1
      injection h1 with h2 h3
      injection h2
  · intro a b st herr
    rw [hcalc] at herr
    split_ifs at herr with hc
    · injection herr with h1
      injection h1 with h2 h3
      injection h2 with h4 h5
      rw [← h4, ← h5, hps] at *
      exact ⟨rfl, rfl, by rw [← hps]; exact hc⟩

/-- C3 (confirmed): for a non-empty participant list, a method among
equal/percentage/ratio, and all supplied ratios at least 1, the allocation
fails with a `ValueError` exactly when (i) the method is `percentage` and the
input percentages do not sum to 100 within 0.01 — the raised error carrying
that actual sum — or (ii) the paid amounts (defaulting to 0) differ from the
total by more than 0.01 — the raised error carrying both values; in all other
cases it returns normally. -/
theorem C3_validation_errors (total : ℚ) (ps : List Participant) (m : String)
    (hne : ps ≠ [])
    (hm : m = "equal" ∨ m = "percentage" ∨ m = "ratio")
    (hr : ∀ p ∈ ps, ∀ r, p.share_ratio = some r → 1 ≤ r) :
    ((∃ err, calculate_split_amounts total ps m = .error err) ↔
      ((m = "percentage" ∧ |sumPct ps - 100| > 1/100)
        ∨ |sumPaid ps - total| > 1/100))
    ∧ (∀ s st, calculate_split_amounts total ps m = .error (.percentageSum s, st) →
        s = sumPct ps ∧ |s - 100| > 1/100)
    ∧ (∀ a b st, calculate_split_amounts total ps m = .error (.paidMismatch a b, st) →
        a = sumPaid ps ∧ b = total ∧ |a - b| > 1/100) := by
  rcases hm with hm | hm | hm <;> subst hm
  · exact calcErrCharacterization total ps _ _ (applyShares_equal total ps hne)
      (by rintro ⟨h, _⟩; exact absurd h (by decide))
  · by_cases hfail : |sumPct ps - 100| > 1/100
    · have hap : applyShares total ps ("percentage")
          = .error (.percentageSum (sumPct ps)) := by
        rw [applyShares_percentage, if_pos hfail]
      have hcalc := calculate_err hap
      refine ⟨?_, ?_, ?_⟩
      · exact ⟨fun _ => Or.inl ⟨rfl, hfail⟩, fun _ => ⟨_, hcalc⟩⟩
      · intro s st herr
        have h := hcalc.symm.trans herr
        injection h with h1
        injection h1 with h2 h3
        injection h2 with h4
        exact ⟨h4.symm, by rw [← h4]; exact hfail⟩
      · intro a b st herr
        have h := hcalc.symm.trans herr
        injection h with h1
        injection h1 with h2 h3
        injection h2
    · have hap : applyShares total ps ("percentage") = .ok (ps.map (pctUpd total)) := by
        rw [applyShares_percentage, if_neg hfail]
      exact calcErrCharacterization total ps _ _ hap (by rintro ⟨_, h⟩; exact hfail h)
  · have hR : sumRatio ps ≠ 0 := (sumRatio_pos ps hne hr).ne'
    exact calcErrCharacterization total ps _ _ (applyShares_ratio total ps hR)
      (by rintro ⟨h, _⟩; exact absurd h (by decide))

/-- Witness for `C3_validation_errors`: percentage method whose input
percentages sum to 99.5 — the iff yields an error run, and it carries 99.5. -/
theorem C3_witness :
    ((∃ err, calculate_split_amounts 100
        [{ share_percentage := some 40 }, { share_percentage := some (119/2) }]
        ("percentage") = .error err) ↔
      (("percentage" = "percentage"
          ∧ |sumPct [{ share_percentage := some 40 },
                     { share_percentage := some (119/2) }] - 100| > 1/100)
        ∨ |sumPaid [{ share_percentage := some 40 },
                    { share_percentage := some (119/2) }] - 100| > 1/100))
    ∧ (∀ s st, calculate_split_amounts 100
        [{ share_percentage := some 40 }, { share_percentage := some (119/2) }]
        ("percentage") = .error (.percentageSum s, st) →
        s = sumPct [{ share_percentage := some 40 },
                    { share_percentage := some (119/2) }] ∧ |s - 100| > 1/100)
    ∧ (∀ a b st, calculate_split_amounts 100
        [{ share_percentage := some 40 }, { share_percentage := some (119/2) }]
        ("percentage") = .error (.paidMismatch a b, st) →
        a = sumPaid [{ share_percentage := some 40 },
                     { share_percentage := some (119/2) }] ∧ b = 100
          ∧ |a - b| > 1/100) := by
  refine C3_validation_errors 100 _ ("percentage") (by simp) (Or.inr (Or.inl rfl)) ?_
  intro p hp r hsr
  simp at hp
  rcases hp with hp | hp <;> subst hp <;> simp at hsr

/-! ### Claim C5 -/

/-- A successful `ratio` allocation has a nonzero ratio total. -/
theorem ratio_ok_sumRatio_ne {total : ℚ} {ps rs : List Participant}
    (hap : applyShares total ps ("ratio") = .ok rs) : sumRatio ps ≠ 0 := by
  intro hR
  unfold applyShares at hap
  rw [if_neg (by decide), if_neg (by decide), if_pos rfl, if_pos hR] at hap
  cases hap

/-- C5 (amended): every successful allocation populates `share_amount` and
`amount_owed` for every participant; `share_percentage` and `share_ratio` are
additionally populated by the `equal` method, and `share_percentage` by the
`ratio` method — under `percentage` the `share_ratio` key (and under
`percentage`/`ratio` any key the branch does not write) keeps only whatever
the input supplied, so not all four fields are populated in general. -/
theorem C5_fields_populated (total : ℚ) (ps qs : List Participant) (m : String)
    (hm : m = "equal" ∨ m = "percentage" ∨ m = "ratio")
    (hok : calculate_split_amounts total ps m = .ok qs) :
    (∀ q ∈ qs, q.share_amount.isSome ∧ q.amount_owed.isSome)
    ∧ (m = "equal" →
        ∀ q ∈ qs, q.share_percentage.isSome ∧ q.share_ratio.isSome)
    ∧ (m = "ratio" → ∀ q ∈ qs, q.share_percentage.isSome) := by
  obtain ⟨rs, hap, hchk, hq⟩ := calculate_ok_iff.mp hok
  subst hq
  rcases hm with hm | hm | hm <;> subst hm
  · have hne : ps ≠ [] := equal_ok_ne_nil hap
    rw [applyShares_equal total ps hne] at hap
    injection hap with hap
    subst hap
    refine ⟨?_, fun _ q hq => ?_, fun h => absurd h (by decide)⟩
    · intro q hq
      obtain ⟨r, hr, rfl⟩ := List.mem_map.mp hq
      obtain ⟨p, hp, rfl⟩ := List.mem_map.mp hr
      exact ⟨rfl, rfl⟩
    · obtain ⟨r, hr, rfl⟩ := List.mem_map.mp hq
      obtain ⟨p, hp, rfl⟩ := List.mem_map.mp hr
      exact ⟨rfl, rfl⟩
  · rw [applyShares_percentage total ps] at hap
    split_ifs at hap with hcond
    injection hap with hap
    subst hap
    refine ⟨?_, fun h => absurd h (by decide), fun h => absurd h (by decide)⟩
    intro q hq
    obtain ⟨r, hr, rfl⟩ := List.mem_map.mp hq
    obtain ⟨p, hp, rfl⟩ := List.mem_map.mp hr
    exact ⟨rfl, rfl⟩
  · have hR : sumRatio ps ≠ 0 := ratio_ok_sumRatio_ne hap
    rw [applyShares_ratio total ps hR] at hap
    injection hap with hap
    subst hap
    refine ⟨?_, fun h => absurd h (by decide), fun _ q hq => ?_⟩
    · intro q hq
      obtain ⟨r, hr, rfl⟩ := List.mem_map.mp hq
      obtain ⟨p, hp, rfl⟩ := List.mem_map.mp hr
      exact ⟨rfl, rfl⟩
    · obtain ⟨r, hr, rfl⟩ := List.mem_map.mp hq
      obtain ⟨p, hp, rfl⟩ := List.mem_map.mp hr
      rfl

/-- C5 counterexample input: one participant, percentage method, 100%. -/
def c5ps : List Participant := [{ share_percentage := some 100, amount_paid := some 100 }]

/-- The allocation result for the C5 counterexample. -/
def c5qs : List Participant := owedMap (c5ps.map (pctUpd 100))

theorem c5_calc : calculate_split_amounts 100 c5ps ("percentage") = .ok c5qs := by
  have hap : applyShares 100 c5ps ("percentage") = .ok (c5ps.map (pctUpd 100)) := by
    rw [applyShares_percentage, if_neg (by norm_num [sumPct, c5ps])]
  refine calculate_ok_of hap ?_
  rw [sumPaid_map _ _ (pctUpd_paid _)]
  norm_num [sumPaid, c5ps]

/-- C5 counterexample: a successful `percentage` allocation whose single
returned participant has no `share_ratio` value at all — the `percentage`
branch never writes `share_ratio`, refuting "all four fields populated". -/
theorem C5_counterexample :
    calculate_split_amounts 100 c5ps ("percentage") = .ok c5qs
    ∧ c5qs.map (fun q => q.share_ratio) = [none] := by
  refine ⟨c5_calc, ?_⟩
  simp [c5qs, owedMap, pctUpd, c5ps]

/-- Witness for `C5_fields_populated` at the percentage input of the
counterexample. -/
theorem C5_witness :
    (∀ q ∈ c5qs, q.share_amount.isSome ∧ q.amount_owed.isSome)
    ∧ (("percentage" : String) = "equal" →
        ∀ q ∈ c5qs, q.share_percentage.isSome ∧ q.share_ratio.isSome)
    ∧ (("percentage" : String) = "ratio" → ∀ q ∈ c5qs, q.share_percentage.isSome) :=
  C5_fields_populated 100 c5ps c5qs ("percentage") (Or.inr (Or.inl rfl)) c5_calc

/-! ### Claim C10 -/

/-- C10 (confirmed): whenever the share phase succeeds but the paid-sum check
fails, the raised error carries the participant list *with the shares already
written in place* (every participant in the error state has `share_amount`
populated for the three real methods) — state is not rolled back. -/
theorem C10_nonatomic_error_state (total : ℚ) (ps rs : List Participant)
    (m : String) (hm : m = "equal" ∨ m = "percentage" ∨ m = "ratio")
    (hap : applyShares total ps m = .ok rs)
    (hfail : |sumPaid ps - total| > 1/100) :
    calculate_split_amounts total ps m
      = .error (.paidMismatch (sumPaid ps) total, rs)
    ∧ (∀ q ∈ rs, q.share_amount.isSome) := by
  have hps : sumPaid rs = sumPaid ps := applyShares_sumPaid hap
  constructor
  · rw [calculate_eq hap, if_pos (by rw [hps]; exact hfail), hps]
  · rcases hm with hm | hm | hm <;> subst hm
    · have hne : ps ≠ [] := equal_ok_ne_nil hap
      rw [applyShares_equal total ps hne] at hap
      injection hap with hap
      subst hap
      intro q hq
      obtain ⟨p, hp, rfl⟩ := List.mem_map.mp hq
      rfl
    · rw [applyShares_percentage total ps] at hap
      split_ifs at hap with hcond
      injection hap with hap
      subst hap
      intro q hq
      obtain ⟨p, hp, rfl⟩ := List.mem_map.mp hq
      rfl
    · have hR : sumRatio ps ≠ 0 := ratio_ok_sumRatio_ne hap
      rw [applyShares_ratio total ps hR] at hap
      injection hap with hap
      subst hap
      intro q hq
      obtain ⟨p, hp, rfl⟩ := List.mem_map.mp hq
      rfl

/-- Witness for `C10_nonatomic_error_state`: a single participant who paid
nothing toward a total of 1, split equally; the error state differs from the
input (its participant now carries `share_amount = 1`). -/
theorem C10_witness :
    (calculate_split_amounts 1 [{}] ("equal")
        = .error (.paidMismatch (sumPaid [{}]) 1, [{}].map (equalUpd 1 1))
      ∧ (∀ q ∈ ([{}] : List Participant).map (equalUpd 1 1), q.share_amount.isSome))
    ∧ ([{}] : List Participant).map (equalUpd 1 1) ≠ [{}] := by
  have hlen : ((([{}] : List Participant).length : ℕ) : ℚ) = 1 := by norm_num
  have hap : applyShares 1 [{}] ("equal") = .ok ([{}].map (equalUpd 1 1)) := by
    rw [applyShares_equal _ _ (by simp), hlen]
  have hfail : |sumPaid ([{}] : List Participant) - 1| > 1/100 := by
    norm_num [sumPaid]
  refine ⟨C10_nonatomic_error_state 1 [{}] _ ("equal") (Or.inl rfl) hap hfail, ?_⟩
  intro h
  injection h with h1 h2
  have := congrArg Participant.share_amount h1
  simp [equalUpd] at this

/-! ### Claim C4 -/

/-- A stored transaction document (the fields `create_or_update_split`
reads). -/
structure Transaction where
  _id : String
  user_id : String
  merchant : String
  amount : ℚ
  category : String
  date : String
deriving DecidableEq, Repr

/-- The split document written by `create_or_update_split` (timestamps are
not modelled). -/
structure SplitDoc where
  user_id : String
  transaction_id : String
  merchant : String
  total_amount : ℚ
  category : String
  date : String
  split_method : String
  participants : List Participant
  notes : Option String
deriving DecidableEq, Repr

/-- The storage state visible to `create_or_update_split`: the `transactions`
collection and the `splits` collection (split id paired with document). -/
structure Db where
  transactions : List Transaction
  splits : List (String × SplitDoc)
deriving DecidableEq, Repr

/-- `create_or_update_split` (db.py lines 434-515).  Returns the split id on
success and `None` otherwise; `fresh_id` stands for the ObjectId MongoDB
would assign on insert.  Crucially, both `except ValueError` and
`except Exception` catch any error raised by `calculate_split_amounts`,
print it to the server log, and return `None` — the error value itself is
dropped. -/
def create_or_update_split (db : Db) (fresh_id : String)
    (user_id transaction_id : String) (participants : List Participant)
    (split_method : String) (notes : Option String) : Option String × Db :=
  match db.transactions.find?
      (fun t => t._id == transaction_id && t.user_id == user_id) with
  | none => (none, db)
  | some txn =>
    match calculate_split_amounts txn.amount participants split_method with
    | .error _ => (none, db)
    | .ok calculated =>
      let doc : SplitDoc := ⟨user_id, transaction_id, txn.merchant, txn.amount,
        txn.category, txn.date, split_method, calculated, notes⟩
      match db.splits.find?
          (fun s => s.2.transaction_id == transaction_id && s.2.user_id == user_id) with
      | some (sid, _) =>
        (some sid,
         { db with splits := db.splits.map (fun s => if s.1 == sid then (sid, doc) else s) })
      | none => (some fresh_id, { db with splits := db.splits ++ [(fresh_id, doc)] })

/-- C4 (amended): when the participants fail validation, the failure is NOT
surfaced to the caller of the split-creation operation — `create_or_update_split`
catches the error and returns a bare `None` with the storage unchanged,
carrying no numeric discrepancy (the numbers are only printed to the server
log; the HTTP endpoint then reports a generic "Failed to create split"). -/
theorem C4_validation_not_surfaced (db : Db) (fresh user tid : String)
    (parts : List Participant) (m : String) (notes : Option String)
    (txn : Transaction)
    (hfind : db.transactions.find?
      (fun t => t._id == tid && t.user_id == user) = some txn)
    (e : SplitError) (st : List Participant)
    (herr : calculate_split_amounts txn.amount parts m = .error (e, st)) :
    create_or_update_split db fresh user tid parts m notes = (none, db) := by
  unfold create_or_update_split
  rw [hfind]
  dsimp only
  rw [herr]

/-- C4 counterexample data. -/
def c4txn : Transaction :=
  { _id := "t1", user_id := "u1", merchant := "shop", amount := 100,
    category := "Others", date := "2025-10-18" }

def c4db : Db := { transactions := [c4txn], splits := [] }

def c4parts : List Participant :=
  [{ share_percentage := some 40 }, { share_percentage := some (119/2) }]

/-- C4 counterexample: with percentages summing to 99.5 the allocator raises
an error naming 99.5, but `create_or_update_split` returns exactly the same
observable outcome `(none, unchanged db)` as a call for a nonexistent
transaction — the numeric discrepancy never reaches the caller, refuting the
claim that it is surfaced rather than reported as a generic failure. -/
theorem C4_counterexample :
    calculate_split_amounts 100 c4parts ("percentage")
        = .error (.percentageSum (199/2), c4parts)
    ∧ create_or_update_split c4db ("s1") ("u1") ("t1") c4parts ("percentage") none
        = (none, c4db)
    ∧ create_or_update_split c4db ("s1") ("u1") ("missing") c4parts
        ("percentage") none = (none, c4db) := by
  have hsum : sumPct c4parts = 199/2 := by norm_num [sumPct, c4parts]
  have hap : applyShares 100 c4parts ("percentage")
      = .error (.percentageSum (199/2)) := by
    rw [applyShares_percentage, hsum,
      if_pos (by rw [show (199/2 : ℚ) - 100 = -(1/2) by norm_num, abs_neg,
        abs_of_pos (by norm_num : (0:ℚ) < 1/2)]; norm_num)]
  have hcalc := calculate_err hap
  have hfind : c4db.transactions.find?
      (fun t => t._id == ("t1" : String) && t.user_id == ("u1" : String)) = some c4txn := by
    simp [c4db, c4txn, List.find?]
  refine ⟨hcalc, ?_, ?_⟩
  · exact C4_validation_not_surfaced c4db ("s1") ("u1") ("t1") c4parts
      ("percentage") none c4txn hfind _ _ hcalc
  · unfold create_or_update_split
    rw [show c4db.transactions.find?
        (fun t => t._id == ("missing" : String) && t.user_id == ("u1" : String)) = none by
      simp [c4db, c4txn, List.find?]]

/-- Witness for `C4_validation_not_surfaced` at the counterexample data. -/
theorem C4_witness :
    create_or_update_split c4db ("s2") ("u1") ("t1") c4parts ("percentage") none
      = (none, c4db) := by
  have hsum : sumPct c4parts = 199/2 := by norm_num [sumPct, c4parts]
  have hap : applyShares 100 c4parts ("percentage")
      = .error (.percentageSum (199/2)) := by
    rw [applyShares_percentage, hsum,
      if_pos (by rw [show (199/2 : ℚ) - 100 = -(1/2) by norm_num, abs_neg,
        abs_of_pos (by norm_num : (0:ℚ) < 1/2)]; norm_num)]
  exact C4_validation_not_surfaced c4db ("s2") ("u1") ("t1") c4parts
    ("percentage") none c4txn (by simp [c4db, c4txn, List.find?]) _ _
    (calculate_err hap)

/-! ### Categorizer (categorizer.py) -/

/-- Python whitespace for `str.strip()` / `\s`. -/
def isPySpace (c : Char) : Bool :=
  c == ' ' || c == '\t' || c == '\n' || c == '\x0d' || c == '\x0b' || c == '\x0c'

/-- Does the first list occur as a leading segment of the second? -/
def startsWithL : List Char → List Char → Bool
  | [], _ => true
  | _ :: _, [] => false
  | a :: as, b :: bs => a == b && startsWithL as bs

/-- Python `needle in hay` on strings (char-list form); the empty needle is
contained in everything. -/
def containsL : List Char → List Char → Bool
  | n, [] => n.isEmpty
  | n, h@(_ :: t) => startsWithL n h || containsL n t

/-- Python `str.lower()` (ASCII, as exercised by this code base). -/
def lowerL (s : String) : List Char := s.toList.map Char.toLower

/-- Python `needle in hay` where `hay` is an already-lowered char list. -/
def pyInL (needle : String) (hay : List Char) : Bool := containsL needle.toList hay

/-- Python `str.strip()` (both ends, whitespace). -/
def pyStrip (s : String) : String :=
  String.mk (((s.toList.dropWhile isPySpace).reverse.dropWhile isPySpace).reverse)

/-- `get_valid_categories` (categorizer.py lines 14-34). -/
def get_valid_categories : List String :=
  ["Food and Drinks", "Groceries", "Shopping", "Entertainment",
   "Travel and Transport", "Bills and Utilities", "Healthcare", "Education",
   "Investments", "Personal Care", "Subscriptions", "Others"]

def kwFoodDrinks : List String :=
  ["restaurant", "cafe", "coffee", "pizza", "burger", "food",
   "domino", "mcdonald", "kfc", "subway", "starbucks",
   "swiggy", "zomato", "ubereats", "dining", "kitchen",
   "biryani", "dhaba", "bar", "pub", "drinks",
   "bakery", "tea", "juice", "ice cream", "dunkin"]

def kwGroceries : List String :=
  ["grocery", "supermarket", "blinkit", "bigbasket", "grofers",
   "instamart", "dunzo", "fresh", "vegetables", "fruits",
   "dmart", "reliance fresh", "more megastore", "nature\x27s basket",
   "spencer", "star bazaar", "jiomart"]

def kwShopping : List String :=
  ["amazon", "flipkart", "myntra", "ajio", "meesho",
   "shop", "store", "mart", "bazaar", "mall", "retail",
   "fashion", "clothing", "electronics", "apparel",
   "furniture", "decor", "snapdeal", "nykaa", "lenskart",
   "vijay sales", "croma", "reliance digital"]

def kwEntertainment : List String :=
  ["netflix", "prime", "hotstar", "spotify", "youtube",
   "movie", "cinema", "theater", "theatre", "pvr", "inox",
   "game", "entertainment", "music", "concert", "event",
   "bookmyshow", "paytm insider", "sony liv", "zee5",
   "disney", "voot", "mx player"]

def kwTravel : List String :=
  ["uber", "ola", "rapido", "taxi", "cab", "metro",
   "bus", "train", "flight", "airline", "fuel", "petrol",
   "transport", "travel", "hotel", "resort", "booking",
   "airbnb", "makemytrip", "goibibo", "cleartrip", "irctc",
   "indigo", "spicejet", "vistara", "air india", "diesel",
   "parking", "toll", "oyo"]

def kwBills : List String :=
  ["electricity", "water", "gas", "bill", "utility",
   "broadband", "internet", "wifi", "recharge", "mobile",
   "airtel", "jio", "vodafone", "bsnl", "tata", "adani",
   "reliance", "postpaid", "prepaid", "tata sky", "dish tv",
   "sun direct", "airtel digital", "dth"]

def kwHealthcare : List String :=
  ["hospital", "clinic", "doctor", "medical", "health",
   "pharmacy", "apollo", "medplus", "netmeds", "1mg",
   "pharmeasy", "medicine", "diagnostic", "lab", "test",
   "fortis", "max", "manipal", "narayana", "dental",
   "physiotherapy", "ayurveda"]

def kwEducation : List String :=
  ["education", "school", "college", "university", "course",
   "tuition", "coaching", "udemy", "coursera", "upgrad",
   "byju", "unacademy", "vedantu", "toppr", "book",
   "library", "stationery", "exam", "fees", "admission"]

def kwInvestments : List String :=
  ["investment", "mutual fund", "stock", "sip", "insurance",
   "zerodha", "groww", "upstox", "angel", "paytm money",
   "lic", "hdfc life", "icici prudential", "sbi life",
   "policy", "premium", "fd", "fixed deposit", "recurring"]

def kwPersonalCare : List String :=
  ["salon", "spa", "beauty", "parlour", "gym", "fitness",
   "yoga", "massage", "wellness", "hair", "skin",
   "cult.fit", "urban company", "lakme", "vlcc",
   "grooming", "cosmetics", "makeup"]

def kwSubscriptions : List String :=
  ["subscription", "monthly", "annual", "membership",
   "amazon prime", "youtube premium", "linkedin premium",
   "office 365", "adobe", "microsoft", "apple",
   "google one", "icloud", "dropbox", "canva pro"]

/-- `categorize_merchant_fallback` (categorizer.py lines 93-212): the chain of
`if any(keyword in merchant_lower ...)` tests, in source order. -/
def categorize_merchant_fallback (merchant_name : String) : String :=
  let ml := lowerL merchant_name
  if kwFoodDrinks.any (fun k => pyInL k ml) then "Food and Drinks"
  else if kwGroceries.any (fun k => pyInL k ml) then "Groceries"
  else if kwShopping.any (fun k => pyInL k ml) then "Shopping"
  else if kwEntertainment.any (fun k => pyInL k ml) then "Entertainment"
  else if kwTravel.any (fun k => pyInL k ml) then "Travel and Transport"
  else if kwBills.any (fun k => pyInL k ml) then "Bills and Utilities"
  else if kwHealthcare.any (fun k => pyInL k ml) then "Healthcare"
  else if kwEducation.any (fun k => pyInL k ml) then "Education"
  else if kwInvestments.any (fun k => pyInL k ml) then "Investments"
  else if kwPersonalCare.any (fun k => pyInL k ml) then "Personal Care"
  else if kwSubscriptions.any (fun k => pyInL k ml) then "Subscriptions"
  else "Others"

/-- The category/keyword priority table exactly as the spec states it
("for each category in a fixed priority order ... first category whose list
matches"). -/
def categoryKeywords : List (String × List String) :=
  [("Food and Drinks", kwFoodDrinks), ("Groceries", kwGroceries),
   ("Shopping", kwShopping), ("Entertainment", kwEntertainment),
   ("Travel and Transport", kwTravel), ("Bills and Utilities", kwBills),
   ("Healthcare", kwHealthcare), ("Education", kwEducation),
   ("Investments", kwInvestments), ("Personal Care", kwPersonalCare),
   ("Subscriptions", kwSubscriptions)]

/-- Modelled from the spec wording of the fallback classifier: the first
category in the priority table whose keyword list matches the lower-cased
merchant name, else "Others". -/
def fallbackSpec (merchant_name : String) : String :=
  let ml := lowerL merchant_name
  ((categoryKeywords.find? (fun c => c.2.any (fun k => pyInL k ml))).map
    (fun c => c.1)).getD ("Others")

/-- The partial-match test of categorizer.py line 80:
`valid_cat.lower() in category.lower() or category.lower() in valid_cat.lower()`. -/
def partialMatch (category : String) (vc : String) : Bool :=
  containsL (lowerL vc) (lowerL category) || containsL (lowerL category) (lowerL vc)

/-- `categorize_merchant` (categorizer.py lines 37-90), with the impure parts
made explicit: `remote = none` models "no credential configured, or the
remote call raised"; `remote = some txt` models a remote call that returned
text `txt`.  The validation of `txt` follows lines 72-85. -/
def categorize_merchant (merchant_name : String) (remote : Option String) : String :=
  match remote with
  | none => categorize_merchant_fallback merchant_name
  | some txt =>
    let category := pyStrip txt
    if get_valid_categories.contains category then category
    else
      match get_valid_categories.find? (partialMatch category) with
      | some vc => vc
      | none => categorize_merchant_fallback merchant_name

/-! ### Claims C8 and C9 -/

/-- `List.find?` returns precisely the first element satisfying the
predicate. -/
theorem find?_first_spec {α : Type} (p : α → Bool) :
    ∀ (l : List α) (x : α),
      l.find? p = some x ↔
        ∃ l1 l2, l = l1 ++ x :: l2 ∧ p x = true ∧ ∀ y ∈ l1, p y = false := by
  intro l
  induction l with
  | nil =>
    intro x
    simp [List.find?]
  | cons a t ih =>
    intro x
    cases h : p a with
    | true =>
      rw [List.find?_cons_of_pos _ h]
      constructor
      · intro hx
        injection hx with hx
        subst hx
        exact ⟨[], t, rfl, h, by simp⟩
      · rintro ⟨l1, l2, heq, hpx, hl1⟩
        cases l1 with
        | nil =>
          simp only [List.nil_append, List.cons.injEq] at heq
          rw [heq.1]
        | cons b l1' =>
          simp only [List.cons_append, List.cons.injEq] at heq
          have hb := hl1 b (by simp)
          rw [← heq.1, h] at hb
          cases hb
    | false =>
      rw [List.find?_cons_of_neg _ (by simp [h])]
      rw [ih x]
      constructor
      · rintro ⟨l1, l2, heq, hpx, hl1⟩
        refine ⟨a :: l1, l2, by simp [heq], hpx, ?_⟩
        intro y hy
        rcases List.mem_cons.mp hy with rfl | hy'
        · exact h
        · exact hl1 y hy'
      · rintro ⟨l1, l2, heq, hpx, hl1⟩
        cases l1 with
        | nil =>
          simp only [List.nil_append, List.cons.injEq] at heq
          rw [← heq.1] at hpx
          rw [h] at hpx
          cases hpx
        | cons b l1' =>
          simp only [List.cons_append, List.cons.injEq] at heq
          exact ⟨l1', l2, heq.2, hpx, fun y hy => hl1 y (by simp [hy])⟩

/-- C8 (amended): when the remote call fails (or no credential is set) the
fallback on the merchant decides; a response whose stripped text exactly
equals a category is accepted; otherwise the first category of the fixed set,
in its defined order, that matches by case-insensitive substring in either
direction is accepted; only when the stripped response matches no category at
all does the fallback on the merchant decide.  (An empty response is a
substring of every category, so it yields the first category, "Food and
Drinks", not the fallback — see `C8_counterexample`.) -/
theorem C8_remote_validation :
    (∀ merchant, categorize_merchant merchant none
        = categorize_merchant_fallback merchant)
    ∧ (∀ merchant txt, get_valid_categories.contains (pyStrip txt) = true →
        categorize_merchant merchant (some txt) = pyStrip txt)
    ∧ (∀ merchant txt vc, get_valid_categories.contains (pyStrip txt) = false →
        get_valid_categories.find? (partialMatch (pyStrip txt)) = some vc →
        categorize_merchant merchant (some txt) = vc
          ∧ ∃ l1 l2, get_valid_categories = l1 ++ vc :: l2
              ∧ partialMatch (pyStrip txt) vc = true
              ∧ ∀ y ∈ l1, partialMatch (pyStrip txt) y = false)
    ∧ (∀ merchant txt, get_valid_categories.contains (pyStrip txt) = false →
        get_valid_categories.find? (partialMatch (pyStrip txt)) = none →
        categorize_merchant merchant (some txt)
          = categorize_merchant_fallback merchant) := by
  refine ⟨fun merchant => rfl, ?_, ?_, ?_⟩
  · intro merchant txt hc
    unfold categorize_merchant
    dsimp only
    rw [if_pos hc]
  · intro merchant txt vc hc hfind
    unfold categorize_merchant
    dsimp only
    rw [if_neg (by rw [hc]; exact Bool.false_ne_true), hfind]
    exact ⟨rfl, (find?_first_spec _ _ _).mp hfind⟩
  · intro merchant txt hc hfind
    unfold categorize_merchant
    dsimp only
    rw [if_neg (by rw [hc]; exact Bool.false_ne_true), hfind]

/-- C8 counterexample: the remote call succeeds with empty output, yet the
result is "Food and Drinks" (the empty string is a substring of every
category, so the first category wins), not the fallback result
"Healthcare" for the merchant "Apollo Pharmacy".  This refutes the claim
that empty output falls through to the keyword fallback. -/
theorem C8_counterexample :
    categorize_merchant ("Apollo Pharmacy") (some "") = "Food and Drinks"
    ∧ categorize_merchant_fallback ("Apollo Pharmacy") = "Healthcare" := by
  exact ⟨by decide, by decide⟩

/-- Witness for `C8_remote_validation`: a failed remote call falls back, an
exact response is accepted verbatim. -/
theorem C8_witness :
    categorize_merchant ("Uber") none = categorize_merchant_fallback ("Uber")
    ∧ categorize_merchant ("Foo") (some " Healthcare ") = pyStrip (" Healthcare ") :=
  ⟨C8_remote_validation.1 ("Uber"),
   C8_remote_validation.2.1 ("Foo") (" Healthcare ") (by decide)⟩

/-- One step of the priority-table first-match read-out. -/
theorem fallbackSpec_cons (name : String) (kws : List String)
    (rest : List (String × List String)) (ml : List Char) :
    ((((name, kws) :: rest).find? (fun c => c.2.any (fun k => pyInL k ml))).map
      (fun c => c.1)).getD ("Others")
    = (if kws.any (fun k => pyInL k ml)
       then name
       else ((rest.find? (fun c => c.2.any (fun k => pyInL k ml))).map
         (fun c => c.1)).getD ("Others")) := by
  cases h : kws.any (fun k => pyInL k ml) with
  | true =>
    rw [List.find?_cons_of_pos _ (by simpa using h)]
    simp
  | false =>
    rw [List.find?_cons_of_neg _ (by simp [h])]
    simp

/-- C9 (confirmed): the fallback classifier returns the first category, in
the fixed priority order, whose keyword list has a member occurring in the
lower-cased merchant name, and "Others" when none matches; in particular
"Apollo Pharmacy" maps to "Healthcare" and "Unknown Merchant XYZ" to
"Others". -/
theorem C9_fallback_classifier :
    (∀ m, categorize_merchant_fallback m = fallbackSpec m)
    ∧ categorize_merchant_fallback ("Apollo Pharmacy") = "Healthcare"
    ∧ categorize_merchant_fallback ("Unknown Merchant XYZ") = "Others" := by
  refine ⟨?_, by decide, by decide⟩
  intro m
  unfold categorize_merchant_fallback fallbackSpec categoryKeywords
  simp only [fallbackSpec_cons]
  simp [List.find?]

/-! ### A small backtracking regex engine (parser.py's `re` usage)

The engine models Python `re.search` for the pattern fragments parser.py
uses: character classes, ordered alternation, greedy and lazy counted
repetition, capture groups, and the `$` anchor (end of text; trailing-newline
handling is irrelevant to the texts considered).  Matching is
continuation-passing with leftmost start position and Python's backtracking
priority (left alternative first, greedy prefers longer, lazy prefers
shorter).  `fuel` bounds recursion depth only and is chosen amply for the
inputs considered. -/

inductive Rx where
  | eps
  | cls (p : Char → Bool)
  | seq (a b : Rx)
  | alt (a b : Rx)
  | rep (a : Rx) (lo : Nat) (hi : Option Nat) (lzy : Bool)
  | grp (i : Nat) (a : Rx)
  | eos

/-- Captured groups: group index paired with captured characters. -/
def Caps := List (Nat × List Char)

def mtch (fuel : Nat) (r : Rx) (s : List Char) (caps : Caps)
    (k : List Char → Caps → Option Caps) : Option Caps :=
  match fuel with
  | 0 => none
  | fuel + 1 =>
    match r with
    | .eps => k s caps
    | .eos =>
      match s with
      | [] => k s caps
      | _ :: _ => none
    | .cls p =>
      match s with
      | [] => none
      | c :: rest => if p c then k rest caps else none
    | .seq a b => mtch fuel a s caps (fun s1 c1 => mtch fuel b s1 c1 k)
    | .alt a b =>
      match mtch fuel a s caps k with
      | some res => some res
      | none => mtch fuel b s caps k
    | .grp i a =>
      mtch fuel a s caps (fun s1 c1 =>
        k s1 ((i, s.take (s.length - s1.length)) :: c1))
    | .rep a lo hi lz =>
      if lo > 0 then
        mtch fuel a s caps (fun s1 c1 =>
          mtch fuel (.rep a (lo - 1) (hi.map (fun n => n - 1)) lz) s1 c1 k)
      else
        match hi with
        | some 0 => k s caps
        | _ =>
          if lz then
            match k s caps with
            | some res => some res
            | none =>
              mtch fuel a s caps (fun s1 c1 =>
                if s1.length == s.length then none
                else mtch fuel (.rep a 0 (hi.map (fun n => n - 1)) lz) s1 c1 k)
          else
            match mtch fuel a s caps (fun s1 c1 =>
                if s1.length == s.length then none
                else mtch fuel (.rep a 0 (hi.map (fun n => n - 1)) lz) s1 c1 k) with
            | some res => some res
            | none => k s caps

def mtchTop (fuel : Nat) (r : Rx) (s : List Char) : Option Caps :=
  mtch fuel r s [] (fun _ c => some c)

/-- `re.search`: try successive start positions, leftmost match wins. -/
def reSearch (fuel : Nat) (r : Rx) : List Char → Option Caps
  | [] => mtchTop fuel r []
  | s@(_ :: t) =>
    match mtchTop fuel r s with
    | some c => some c
    | none => reSearch fuel r t

/-- Depth budget: ample for the pattern sizes and text lengths considered. -/
def rxFuel (s : List Char) : Nat := 16 * s.length + 400

def grpGet (caps : Caps) (i : Nat) : Option (List Char) :=
  ((caps.find? (fun e => e.1 == i)).map (fun e => e.2))

/-- `match.group(i)` of the leftmost `re.search` result. -/
def searchGroup (r : Rx) (i : Nat) (s : List Char) : Option (List Char) :=
  (reSearch (rxFuel s) r s).bind (fun caps => grpGet caps i)

/-! Pattern constructors (all main patterns are compiled with
`re.IGNORECASE`, hence case-insensitive literals). -/

def chr (c : Char) : Rx := .cls (fun d => d == c)

def chrI (c : Char) : Rx := .cls (fun d => d.toLower == c.toLower)

def strI (s : String) : Rx := (s.toList.map chrI).foldr .seq .eps

def seqL (l : List Rx) : Rx := l.foldr .seq .eps

def altL : List Rx → Rx
  | [] => .cls (fun _ => false)
  | [r] => r
  | r :: rest => .alt r (altL rest)

def digit : Rx := .cls Char.isDigit

def spc : Rx := .cls isPySpace

def star (r : Rx) : Rx := .rep r 0 none false

def plus (r : Rx) : Rx := .rep r 1 none false

def opt (r : Rx) : Rx := .rep r 0 (some 1) false

def lazyPlus (r : Rx) : Rx := .rep r 1 none true

/-! ### The patterns of `get_regex_patterns` (parser.py lines 11-69) -/

/-- `(?:Rs\.?\s*|₹|Rupees\s+)` -/
def currencyPre : Rx :=
  altL [seqL [chrI ('R'), chrI ('s'), opt (chr ('.')), star spc],
        chr ('₹'),
        seqL [strI ("Rupees"), plus spc]]

/-- `(\d+(?:,\d+)*(?:\.\d{2})?)` (the group body). -/
def amountNum : Rx :=
  seqL [plus digit,
        star (seqL [chr (','), plus digit]),
        opt (seqL [chr ('.'), digit, digit])]

/-- `(?:Rs\.?\s*|₹|Rupees\s+)\s*(\d+(?:,\d+)*(?:\.\d{2})?)` — the amount
pattern of rules 1, 2, 5 and 7. -/
def amountStd : Rx := seqL [currencyPre, star spc, .grp 1 amountNum]

/-- `[A-Za-z0-9\s&\'-]` -/
def merchCls : Rx :=
  .cls (fun c => c.isAlpha || c.isDigit || isPySpace c
    || c == '&' || c == Char.ofNat 39 || c == '-')

/-- `(?:\s+(?:at|on|dated)|\.|$)` -/
def merchTail : Rx :=
  altL [seqL [plus spc, altL [strI ("at"), strI ("on"), strI ("dated")]],
        chr ('.'), .eos]

/-- `(?:<alternatives>)\s+([A-Za-z0-9\s&\'-]+?)(?:\s+(?:at|on|dated)|\.|$)` -/
def merchPat (pre : List String) : Rx :=
  seqL [altL (pre.map strI), plus spc, .grp 1 (lazyPlus merchCls), merchTail]

/-- Rule 3's amount pattern:
`(?:sent|transferred)\s+(?:Rs\.?\s*|₹|Rupees\s+)?\s*(\d+(?:,\d+)*(?:\.\d{2})?)\s+(?:Rs\.?|₹|Rupees)?` -/
def amountSent : Rx :=
  seqL [altL [strI ("sent"), strI ("transferred")], plus spc,
        opt currencyPre, star spc, .grp 1 amountNum, plus spc,
        opt (altL [seqL [chrI ('R'), chrI ('s'), opt (chr ('.'))],
                   chr ('₹'), strI ("Rupees")])]

/-- Rule 4's amount pattern:
`(?:Amount|Amt)[:\s]*(?:Rs\.?\s*|₹|Rupees\s+)\s*(\d+(?:,\d+)*(?:\.\d{2})?)` -/
def amountLabeled : Rx :=
  seqL [altL [strI ("Amount"), strI ("Amt")],
        star (.cls (fun c => c == ':' || isPySpace c)),
        currencyPre, star spc, .grp 1 amountNum]

/-- Rule 6's amount pattern:
`(?:transaction|payment)\s+of\s+(?:Rs\.?\s*|₹|Rupees\s+)\s*(\d+(?:,\d+)*(?:\.\d{2})?)` -/
def amountOf : Rx :=
  seqL [altL [strI ("transaction"), strI ("payment")], plus spc,
        strI ("of"), plus spc, currencyPre, star spc, .grp 1 amountNum]

/-- Rule 7's merchant pattern:
`([A-Z][A-Za-z0-9\s&\'-]{2,30}?)(?:\s+(?:on|dated|transaction|at)|\.|$)` -/
def merchGeneric : Rx :=
  seqL [.grp 1 (seqL [.cls Char.isAlpha, .rep merchCls 2 (some 30) true]),
        altL [seqL [plus spc,
                altL [strI ("on"), strI ("dated"), strI ("transaction"), strI ("at")]],
              chr ('.'), .eos]]

/-- One rule pair of the parser, already specialised to "search the full
text, return capture group 1". -/
structure RulePair where
  amountSearch : List Char → Option (List Char)
  merchantSearch : List Char → Option (List Char)

def mkRule (aPat mPat : Rx) : RulePair :=
  ⟨searchGroup aPat 1, searchGroup mPat 1⟩

/-- `get_regex_patterns` (parser.py lines 11-69): the seven ordered rule
pairs. -/
def get_regex_patterns : List RulePair :=
  [mkRule amountStd (merchPat ["spent at", "paid to", "at"]),
   mkRule amountStd (merchPat ["debited to", "credited to", "to"]),
   mkRule amountSent (merchPat ["to", "at"]),
   mkRule amountLabeled (merchPat ["payment to", "paid to"]),
   mkRule amountStd (merchPat ["to", "at", "from"]),
   mkRule amountOf (merchPat ["at", "to", "from"]),
   mkRule amountStd merchGeneric]

/-! ### Date extraction (parser.py lines 72-119) -/

def slashDash : Rx := .cls (fun c => c == '/' || c == '-')

/-- The date shape `D sep M sep YYYY` where `sep` is a slash or dash. -/
def datePat1 : Rx :=
  seqL [.grp 1 (.rep digit 1 (some 2) false), slashDash,
        .grp 2 (.rep digit 1 (some 2) false), slashDash,
        .grp 3 (.rep digit 4 (some 4) false)]

/-- The date shape `YYYY sep M sep D` where `sep` is a slash or dash. -/
def datePat2 : Rx :=
  seqL [.grp 1 (.rep digit 4 (some 4) false), slashDash,
        .grp 2 (.rep digit 1 (some 2) false), slashDash,
        .grp 3 (.rep digit 1 (some 2) false)]

def monthNames : List String :=
  ["Jan", "Feb", "Mar", "Apr", "May", "Jun",
   "Jul", "Aug", "Sep", "Oct", "Nov", "Dec"]

/-- `(\d{1,2})\s+(Jan|...|Dec)[a-z]*\s+(\d{4})` (IGNORECASE, so `[a-z]`
matches any letter). -/
def datePat3 : Rx :=
  seqL [.grp 1 (.rep digit 1 (some 2) false), plus spc,
        .grp 2 (altL (monthNames.map strI)), star (.cls Char.isAlpha),
        plus spc, .grp 3 (.rep digit 4 (some 4) false)]

/-- The month map of parser.py lines 107-111. -/
def monthMap : List (String × String) :=
  [("jan", "01"), ("feb", "02"), ("mar", "03"), ("apr", "04"),
   ("may", "05"), ("jun", "06"), ("jul", "07"), ("aug", "08"),
   ("sep", "09"), ("oct", "10"), ("nov", "11"), ("dec", "12")]

/-- Python `str.zfill(2)`. -/
def zfill2 (s : List Char) : String :=
  if s.length ≥ 2 then String.mk s
  else String.mk (List.replicate (2 - s.length) ('0') ++ s)

/-- Python `str.isdigit()`: non-empty and all digits. -/
def isDigitsL (s : List Char) : Bool := !s.isEmpty && s.all Char.isDigit

/-- The group-reassembly branches of `extract_date_from_text`
(parser.py lines 96-114); nothing in them can raise, so the surrounding
`try/except: pass` is dead. -/
def reconstructDate (g1 g2 g3 : List Char) : String :=
  if isDigitsL g1 && g1.length == 4 then
    String.mk g1 ++ "-" ++ zfill2 g2 ++ "-" ++ zfill2 g3
  else if isDigitsL g2 then
    String.mk g3 ++ "-" ++ zfill2 g2 ++ "-" ++ zfill2 g1
  else
    String.mk g3 ++ "-"
      ++ ((monthMap.find? (fun e => e.1 == String.mk ((g2.map Char.toLower).take 3))).map
            (fun e => e.2)).getD ("01")
      ++ "-" ++ zfill2 g1

def reconFromCaps (caps : Caps) : String :=
  reconstructDate ((grpGet caps 1).getD []) ((grpGet caps 2).getD [])
    ((grpGet caps 3).getD [])

/-- `extract_date_from_text` (parser.py lines 72-119).  The impure
`datetime.now()` fallback is modelled by the explicit `today` argument. -/
def extract_date_from_text (today : String) (text : String) : String :=
  let s := text.toList
  match reSearch (rxFuel s) datePat1 s with
  | some caps => reconFromCaps caps
  | none =>
    match reSearch (rxFuel s) datePat2 s with
    | some caps => reconFromCaps caps
    | none =>
      match reSearch (rxFuel s) datePat3 s with
      | some caps => reconFromCaps caps
      | none => today

/-! ### Transaction parsing (parser.py lines 122-176) -/

def digitsVal : List Char → Option Nat
  | [] => none
  | l => if l.all Char.isDigit
      then some (l.foldl (fun acc c => acc * 10 + (c.toNat - 48)) 0)
      else none

/-- Python `float(s)` restricted to the decimal numerals the amount patterns
can capture (optionally with a fractional part), after comma removal.  The
value is kept as (mantissa, number of fractional digits), i.e. the float
`mantissa / 10^scale`; `0.0` — Python-falsy — is exactly `mantissa = 0`. -/
def parsePyFloat (s : List Char) : Option (Nat × Nat) :=
  let ip := s.takeWhile (fun c => !(c == '.'))
  match s.dropWhile (fun c => !(c == '.')) with
  | [] => (digitsVal ip).map (fun n => (n, 0))
  | _ :: fp =>
    if fp.any (fun c => c == '.') then none
    else
      match ip, fp with
      | [], [] => none
      | [], _ => (digitsVal fp).map (fun n => (n, fp.length))
      | _, [] => (digitsVal ip).map (fun n => (n, 0))
      | _, _ =>
        match digitsVal ip, digitsVal fp with
        | some a, some b => some (a * 10 ^ fp.length + b, fp.length)
        | _, _ => none

/-- The numeric value of a parsed amount. -/
def amountToRat (v : Nat × Nat) : ℚ := (v.1 : ℚ) / ((10 : ℚ) ^ v.2)

/-- Merchant clean-up (parser.py lines 155-159): `.strip()`, collapse
whitespace runs to one space, then `.strip('.,;:-')` (both ends). -/
def isStripPunct (c : Char) : Bool :=
  c == '.' || c == ',' || c == ';' || c == ':' || c == '-'

def collapseWs : List Char → List Char
  | [] => []
  | c :: t =>
    if isPySpace c then
      match t with
      | d :: _ => if isPySpace d then collapseWs t else ' ' :: collapseWs t
      | [] => [' ']
    else c :: collapseWs t

def cleanMerchant (s : List Char) : String :=
  String.mk
    (((collapseWs (((s.dropWhile isPySpace).reverse.dropWhile isPySpace).reverse)).dropWhile
        isStripPunct).reverse.dropWhile isStripPunct).reverse

/-- The rule loop of `parse_transaction_from_email` (parser.py lines
138-163), with the mutable `merchant` / `amount` variables made explicit loop
state.  A parsed amount of `0` is Python-falsy, so it does not stop the loop
(`if merchant and amount: break`), and state persists across rules. -/
def ruleLoop (s : List Char) :
    List RulePair → Option String → Option (Nat × Nat) →
    Option String × Option (Nat × Nat)
  | [], m, a => (m, a)
  | r :: rest, m, a =>
    match r.amountSearch s with
    | none => ruleLoop s rest m a
    | some g =>
      match parsePyFloat (g.filter (fun c => !(c == ','))) with
      | none => ruleLoop s rest m a
      | some v =>
        match r.merchantSearch s with
        | none => ruleLoop s rest m (some v)
        | some mg =>
          let cleaned := cleanMerchant mg
          if cleaned != "" && v.1 != 0 then (some cleaned, some v)
          else ruleLoop s rest (some cleaned) (some v)

/-- The final truthiness check (parser.py line 166):
`if not merchant or not amount: return None`. -/
def finalize : Option String × Option (Nat × Nat) → Option (String × (Nat × Nat))
  | (some m, some v) => if m == "" || v.1 == 0 then none else some (m, v)
  | (some _, none) => none
  | (none, _) => none

def parseCore (rules : List RulePair) (s : List Char) :
    Option (String × (Nat × Nat)) :=
  finalize (ruleLoop s rules none none)

structure ParsedTxn where
  merchant : String
  amount : Nat × Nat
  date : String
deriving DecidableEq, Repr

/-- `parse_transaction_from_email` (parser.py lines 122-176); `today` models
`datetime.now().strftime` for the date fallback. -/
def parse_transaction_from_email (today subject body : String) :
    Option ParsedTxn :=
  let full_text := subject ++ " " ++ body
  let s := full_text.toList
  match parseCore get_regex_patterns s with
  | none => none
  | some (m, v) => some ⟨m, v, extract_date_from_text today full_text⟩

/-- Modelled from the claim wording: a rule "qualifies" when its amount
pattern matches with a parsable numeral (thousands separators stripped) and
its merchant pattern yields a non-empty cleaned merchant. -/
def ruleQualifies (s : List Char) (r : RulePair) :
    Option (String × (Nat × Nat)) :=
  match r.amountSearch s with
  | none => none
  | some g =>
    match parsePyFloat (g.filter (fun c => !(c == ','))) with
    | none => none
    | some v =>
      match r.merchantSearch s with
      | none => none
      | some mg =>
        let cleaned := cleanMerchant mg
        if cleaned == "" then none else some (cleaned, v)

/-- Modelled from the claim wording: the first qualifying rule, in order,
determines the result; `none` when no rule qualifies. -/
def firstFullMatch (rules : List RulePair) (s : List Char) :
    Option (String × (Nat × Nat)) :=
  match rules with
  | [] => none
  | r :: rest =>
    match ruleQualifies s r with
    | some res => some res
    | none => firstFullMatch rest s

/-- `true` unless this rule's amount pattern matches and parses to the
Python-falsy value `0`. -/
def ruleAmountNonzero (s : List Char) (r : RulePair) : Bool :=
  match r.amountSearch s with
  | none => true
  | some g =>
    match parsePyFloat (g.filter (fun c => !(c == ','))) with
    | none => true
    | some v => v.1 != 0

/-! ### Claims C6 and C7 -/

theorem ruleLoop_firstFullMatch (s : List Char) :
    ∀ (rules : List RulePair) (m : Option String) (a : Option (Nat × Nat)),
      (∀ r ∈ rules, ruleAmountNonzero s r = true) →
      (m = none ∨ m = some "") →
      finalize (ruleLoop s rules m a) = firstFullMatch rules s := by
  intro rules
  induction rules with
  | nil =>
    intro m a _ hm
    rcases hm with rfl | rfl
    · rfl
    · cases a <;> rfl
  | cons r rest ih =>
    intro m a H hm
    have Hr := H r (List.mem_cons_self r rest)
    have Hrest : ∀ x ∈ rest, ruleAmountNonzero s x = true :=
      fun x hx => H x (List.mem_cons_of_mem r hx)
    cases hA : r.amountSearch s with
    | none =>
      simp only [ruleLoop, firstFullMatch, ruleQualifies, hA]
      exact ih m a Hrest hm
    | some g =>
      cases hP : parsePyFloat (g.filter (fun c => !(c == ','))) with
      | none =>
        simp only [ruleLoop, firstFullMatch, ruleQualifies, hA, hP]
        exact ih m a Hrest hm
      | some v =>
        have hv : (v.1 != 0) = true := by
          have h := Hr
          simp only [ruleAmountNonzero, hA, hP] at h
          exact h
        cases hM : r.merchantSearch s with
        | none =>
          simp only [ruleLoop, firstFullMatch, ruleQualifies, hA, hP, hM]
          exact ih m (some v) Hrest hm
        | some mg =>
          by_cases hc : cleanMerchant mg = ""
          · simp only [ruleLoop, firstFullMatch, ruleQualifies, hA, hP, hM, hc,
              bne_self_eq_false, Bool.false_and, beq_self_eq_true, if_false, if_true]
            exact ih (some "") (some v) Hrest (Or.inr rfl)
          · have hcb : (cleanMerchant mg != "") = true := by simpa using hc
            have hcq : (cleanMerchant mg == "") = false := by simpa using hc
            have hbq : (v.1 == 0) = false := by
              have := hv
              simp only [bne] at this
              simpa using this
            simp only [ruleLoop, firstFullMatch, ruleQualifies, finalize, hA, hP, hM,
              hcb, hcq, hbq, hv, Bool.and_self, Bool.or_self, if_true, if_false]
            simp

theorem firstFullMatch_none_iff (s : List Char) :
    ∀ rules : List RulePair,
      firstFullMatch rules s = none ↔ ∀ r ∈ rules, ruleQualifies s r = none := by
  intro rules
  induction rules with
  | nil => simp [firstFullMatch]
  | cons r rest ih =>
    cases hq : ruleQualifies s r with
    | none =>
      simp only [firstFullMatch, hq, ih]
      constructor
      · intro h x hx
        rcases List.mem_cons.mp hx with rfl | hx'
        · exact hq
        · exact h x hx'
      · intro h x hx
        exact h x (List.mem_cons_of_mem r hx)
    | some res =>
      simp only [firstFullMatch, hq]
      constructor
      · intro h
        cases h
      · intro h
        have := h r (List.mem_cons_self r rest)
        rw [hq] at this
        cases this

/-- C6 (amended): the rule loop of `parse_transaction_from_email` agrees with
"the first rule whose amount pattern matches with a parsable numeral and
whose merchant pattern yields a non-empty cleaned merchant determines the
result, else NotFound" — provided no matched amount parses to the
Python-falsy value `0.0`.  (A zero amount does not stop the loop, and its
partial state persists, so the claimed first-match reading fails there — see
`C6_counterexample`; also the punctuation strip applies to both ends of the
merchant, not only trailing.)  The second conjunct records the NotFound
reading: the first-match result is `none` exactly when no rule yields both
fields. -/
theorem C6_first_match_loop :
    (∀ (rules : List RulePair) (s : List Char),
      (∀ r ∈ rules, ruleAmountNonzero s r = true) →
      parseCore rules s = firstFullMatch rules s)
    ∧ (∀ (rules : List RulePair) (s : List Char),
      firstFullMatch rules s = none ↔ ∀ r ∈ rules, ruleQualifies s r = none) := by
  constructor
  · intro rules s H
    exact ruleLoop_firstFullMatch s rules none none H (Or.inl rfl)
  · intro rules s
    exact firstFullMatch_none_iff s rules

/-- C6 counterexample: for the body "Rs. 0 spent at Amazon." the first rule
does match with the parsable numeral "0" and the non-empty merchant "Amazon"
(`firstFullMatch` returns it), yet the parser returns NotFound: the parsed
amount 0.0 is Python-falsy, so the loop never stops and the final truthiness
check rejects the result.  The claimed first-full-match semantics therefore
does not hold as stated. -/
theorem C6_counterexample :
    parse_transaction_from_email ("TODAY") ("") ("Rs. 0 spent at Amazon.") = none
    ∧ firstFullMatch get_regex_patterns ((" Rs. 0 spent at Amazon.").toList)
        = some ("Amazon", (0, 0)) := by
  exact ⟨rfl, rfl⟩

/-- Witness for `C6_first_match_loop` on the real rule list and a real
banking text, whose matched amounts all parse nonzero. -/
theorem C6_witness :
    parseCore get_regex_patterns ((" ₹1299 debited to Amazon on 18/10/2025").toList)
      = firstFullMatch get_regex_patterns ((" ₹1299 debited to Amazon on 18/10/2025").toList) :=
  C6_first_match_loop.1 get_regex_patterns
    ((" ₹1299 debited to Amazon on 18/10/2025").toList) (by decide)

/-- C7 (confirmed): date extraction tries the three date shapes in order —
`D sep M sep YYYY`, then `YYYY sep M sep D`, then `D month-name YYYY` — the
first shape to match anywhere wins, the groups are reassembled by
`reconstructDate` into a `YYYY-MM-DD` string with day and month zero-padded,
and if no shape matches anywhere the supplied today-date is returned; in
particular the body "₹1299 debited to Amazon on 18/10/2025" parses to
merchant "Amazon", amount 1299.0, date "2025-10-18". -/
theorem C7_date_extraction :
    (∀ (today text : String) (caps : Caps),
      reSearch (rxFuel text.toList) datePat1 text.toList = some caps →
      extract_date_from_text today text = reconFromCaps caps)
    ∧ (∀ (today text : String) (caps : Caps),
      reSearch (rxFuel text.toList) datePat1 text.toList = none →
      reSearch (rxFuel text.toList) datePat2 text.toList = some caps →
      extract_date_from_text today text = reconFromCaps caps)
    ∧ (∀ (today text : String) (caps : Caps),
      reSearch (rxFuel text.toList) datePat1 text.toList = none →
      reSearch (rxFuel text.toList) datePat2 text.toList = none →
      reSearch (rxFuel text.toList) datePat3 text.toList = some caps →
      extract_date_from_text today text = reconFromCaps caps)
    ∧ (∀ (today text : String),
      reSearch (rxFuel text.toList) datePat1 text.toList = none →
      reSearch (rxFuel text.toList) datePat2 text.toList = none →
      reSearch (rxFuel text.toList) datePat3 text.toList = none →
      extract_date_from_text today text = today)
    ∧ parse_transaction_from_email ("TODAY") ("") ("₹1299 debited to Amazon on 18/10/2025")
        = some ⟨"Amazon", (1299, 0), "2025-10-18"⟩
    ∧ extract_date_from_text ("TODAY") ("on 5/6/2024") = "2024-06-05"
    ∧ extract_date_from_text ("TODAY") ("15 OCT 2025 payment") = "2025-10-15"
    ∧ extract_date_from_text ("TODAY") ("due 2024/7/3") = "2024-07-03" := by
  refine ⟨?_, ?_, ?_, ?_, rfl, rfl, rfl, rfl⟩
  · intro today text caps h1
    unfold extract_date_from_text
    dsimp only
    rw [h1]
  · intro today text caps h1 h2
    unfold extract_date_from_text
    dsimp only
    rw [h1, h2]
  · intro today text caps h1 h2 h3
    unfold extract_date_from_text
    dsimp only
    rw [h1, h2, h3]
  · intro today text h1 h2 h3
    unfold extract_date_from_text
    dsimp only
    rw [h1, h2, h3]

/-- Witness for `C7_date_extraction`: a text with no date shape returns the
supplied today-date. -/
theorem C7_witness :
    extract_date_from_text ("TODAY") ("no date here") = "TODAY" :=
  C7_date_extraction.2.2.2.1 ("TODAY") ("no date here") rfl rfl rfl
